import Mathlib

/-!
Shallow embedding of `src/lib/jsdoc/funcParser.js` (atom-3en-jsdoc).

The file models, in order:
- the slice of the babylon AST the code inspects (`Loc`, `Expr`, `Pat`,
  `Stmt`, `VarDeclarator`, `ObjPatProp`);
- the parameter simplifier (`parseIdentifierParam`, `parseAssignmentParam`,
  `parseRestParam`, `parseDestructuredParam`, `getParamParser`,
  `simplifyParams`) from funcParser.js lines 91-196;
- the function locator `getNode` (lines 50-89), realised as a pre-order
  event enumeration (babel-traverse's visit order) folded through the
  visitor bodies;
- `simplifyLocation`, `simplifyNode` and `parse` (lines 198-249).

JavaScript runtime errors (property access on null/undefined, the two
`throw` sites) are modelled with `Except JsErr`.  JS numbers that only
ever appear as literal values carried around verbatim are modelled as
`Int`; source positions as `Nat` (babylon lines start at 1, columns at 0).
-/

/-- Start position of a node (`node.loc.start`).  The code never reads
`loc.end`, so only the start is modelled; `node.loc` assignments copy the
whole object, which this projection preserves. -/
structure Loc where
  line : Nat
  column : Nat
deriving Repr, DecidableEq

/-- A JavaScript primitive value as stored in a descriptor's
`defaultValue` field: the code stores either a string (string literals,
the constant renderings of array/object literals) or a number (numeric
literals). -/
inductive JVal where
  | jstr (s : String)
  | jnum (n : Int)
deriving Repr, DecidableEq

/-- Is this JavaScript value a string? -/
def JVal.isString : JVal → Bool
  | .jstr _ => true
  | .jnum _ => false

/-- Failures of a call into funcParser.js:
- `unknownParamType k`: `getParamParser` line 157,
  `new Error` whose message names the offending kind `k`;
- `unknownParamTypeThrown k`: `parseAssignmentParam` line 129, a comma
  expression that throws the bare kind string `k` itself;
- `typeError`: a JS TypeError from reading a property of
  null/undefined (e.g. `declarator.init` is null at line 67-68). -/
inductive JsErr where
  | unknownParamType (kind : String)
  | unknownParamTypeThrown (kind : String)
  | typeError
deriving Repr, DecidableEq

/-- Which syntactic kind name does this error carry?  Both `throw` sites
surface the offending parameter / default-expression kind. -/
def JsErr.carriesKind : JsErr → Option String
  | .unknownParamType k => some k
  | .unknownParamTypeThrown k => some k
  | .typeError => none

/-- A simplified parameter descriptor as built by the param parsers.
Absent JS object keys are `none`; `name` is `Option` because the code can
store an `undefined` name (e.g. `param.argument.name` on a rest element
whose argument is not an identifier). -/
structure SimpleParam where
  name : Option String
  parent : Option String := none
  type : Option String := none
  defaultValue : Option JVal := none
deriving Repr, DecidableEq

mutual
/-- Expressions, restricted to the shapes the code distinguishes.
`otherExpr k` stands for any expression of a kind `k` other than the
modelled ones (so `k` is never one of the modelled kind strings); it has
no children that the traversal's visitors could fire on beyond those of
the modelled shapes the claims exercise. -/
inductive Expr where
  | stringLit (value : String)
  | numericLit (value : Int)
  | arrayExpr (elems : List Expr)
  | objectExpr (values : List Expr)
  | functionExpr (loc : Loc) (params : List Pat) (body : List Stmt)
  | arrowFunctionExpr (loc : Loc) (params : List Pat) (body : List Stmt)
  | identifierExpr (name : String)
  | memberExpr (obj : Expr) (property : Expr)
  | assignmentExpr (loc : Loc) (left : Expr) (right : Expr)
  | otherExpr (kind : String)

/-- Binding patterns (function parameters, object-pattern values).
`otherPat k` stands for any pattern kind `k` outside the four the
dispatch table knows (e.g. ArrayPattern). -/
inductive Pat where
  | identifier (name : String)
  | assignmentPattern (left : Pat) (right : Expr)
  | restElement (arg : Pat)
  | objectPattern (props : List ObjPatProp)
  | otherPat (kind : String)

/-- An ObjectProperty inside an ObjectPattern; the code destructures
`{ value }` from it (funcParser.js line 175). -/
inductive ObjPatProp where
  | mk (key : String) (value : Pat)

/-- Statements, restricted to the shapes the visitors key on plus the
containers needed to nest them. -/
inductive Stmt where
  | functionDecl (loc : Loc) (id : Option String) (params : List Pat) (body : List Stmt)
  | variableDecl (loc : Loc) (decls : List VarDeclarator)
  | exportNamed (loc : Loc) (declaration : Option Stmt)
  | exportDefault (loc : Loc) (declaration : Stmt)
  | exprStmt (e : Expr)
  | returnStmt (arg : Option Expr)
  | blockStmt (body : List Stmt)

/-- A VariableDeclarator: bound pattern and optional initializer
(`init` is null in the AST exactly when the source has no initializer). -/
inductive VarDeclarator where
  | mk (id : Pat) (init : Option Expr)
end

/-- The babylon `type` string of an expression node. -/
def Expr.kind : Expr → String
  | .stringLit _ => "StringLiteral"
  | .numericLit _ => "NumericLiteral"
  | .arrayExpr _ => "ArrayExpression"
  | .objectExpr _ => "ObjectExpression"
  | .functionExpr _ _ _ => "FunctionExpression"
  | .arrowFunctionExpr _ _ _ => "ArrowFunctionExpression"
  | .identifierExpr _ => "Identifier"
  | .memberExpr _ _ => "MemberExpression"
  | .assignmentExpr _ _ _ => "AssignmentExpression"
  | .otherExpr k => k

/-- The babylon `type` string of a pattern node. -/
def Pat.kind : Pat → String
  | .identifier _ => "Identifier"
  | .assignmentPattern _ _ => "AssignmentPattern"
  | .restElement _ => "RestElement"
  | .objectPattern _ => "ObjectPattern"
  | .otherPat k => k

/-- Reading `.name` on a pattern node: only Identifier nodes carry one,
anything else yields JS `undefined`. -/
def patName : Pat → Option String
  | .identifier n => some n
  | _ => none

/-- Reading `.name` on an expression node (used for
`n.left.property.name`): only Identifier nodes carry one. -/
def exprName : Expr → Option String
  | .identifierExpr n => some n
  | _ => none

/-- funcParser.js line 6: the fixed placeholder used for synthetic
destructured-parameter parents. -/
def DEFAULT_PARAM_NAME : String := "Unknown"

/-- funcParser.js lines 98-100: `parseIdentifierParam` yields a single
descriptor holding the identifier's name. -/
def parseIdentifierParam (name : String) : List SimpleParam :=
  [{ name := some name }]

/-- funcParser.js lines 110-133: `parseAssignmentParam` branches on the
default expression's kind.  String and numeric literals keep their value
(a JS string resp. number); array/object literals are rendered as the
fixed strings; anything else throws the kind string (the `throw` with a
comma expression at line 129 evaluates to `paramAssignmentType`). -/
def parseAssignmentParam (left : Pat) (right : Expr) : Except JsErr (List SimpleParam) :=
  match right with
  | .stringLit v =>
      .ok [{ name := patName left, type := some "string", defaultValue := some (.jstr v) }]
  | .numericLit v =>
      .ok [{ name := patName left, type := some "number", defaultValue := some (.jnum v) }]
  | .arrayExpr _ =>
      .ok [{ name := patName left, type := some "array", defaultValue := some (.jstr "[]") }]
  | .objectExpr _ =>
      .ok [{ name := patName left, type := some "object", defaultValue := some (.jstr "\x7b\x7d") }]
  | e => .error (.unknownParamTypeThrown e.kind)

/-- funcParser.js lines 142-144: `parseRestParam` reads
`param.argument.name` and tags the descriptor as an array. -/
def parseRestParam (arg : Pat) : List SimpleParam :=
  [{ name := patName arg, type := some "array" }]

/-- `Object.assign(\x7b\x7d, p, \x7b parent \x7d)` (funcParser.js line 177):
copy of `p` with its `parent` key overwritten. -/
def withParent (parent : String) (p : SimpleParam) : SimpleParam :=
  { p with parent := some parent }

mutual
/-- funcParser.js lines 8-13 and 154-160: look up the param parser for
the node's kind in `PARAM_PARSERS` and apply it (lookup and call are
merged here; a missing table entry is the `new Error` throw of line 157).
Note the table maps ObjectPattern to `parseDestructuredParam`, so
object patterns recurse rather than fail. -/
def getParamParser : Pat → Except JsErr (List SimpleParam)
  | .identifier n => .ok (parseIdentifierParam n)
  | .assignmentPattern l r => parseAssignmentParam l r
  | .restElement a => .ok (parseRestParam a)
  | .objectPattern props => parseDestructuredParam props
  | .otherPat k => .error (.unknownParamType k)

/-- funcParser.js lines 170-180: a destructured parameter reduces its
properties onto an initial synthetic parent descriptor; each property's
value is dispatched through `getParamParser` and every resulting
descriptor gets its `parent` overwritten with the placeholder. -/
def parseDestructuredParam (props : List ObjPatProp) : Except JsErr (List SimpleParam) :=
  match destructuredChildren props with
  | .error e => .error e
  | .ok children =>
      .ok ({ name := some DEFAULT_PARAM_NAME, type := some "object" } :: children)

/-- The reduction over the property list of `parseDestructuredParam`:
left-to-right, first failure aborts, children concatenated in order. -/
def destructuredChildren : List ObjPatProp → Except JsErr (List SimpleParam)
  | [] => .ok []
  | .mk _ v :: rest =>
      match getParamParser v with
      | .error e => .error e
      | .ok ps =>
          match destructuredChildren rest with
          | .error e => .error e
          | .ok tail => .ok (ps.map (withParent DEFAULT_PARAM_NAME) ++ tail)
end

/-- funcParser.js lines 191-196: `simplifyParams` reduces the parameter
list left to right, concatenating each parameter's descriptors; the
first unknown kind or bad default aborts the whole call. -/
def simplifyParams : List Pat → Except JsErr (List SimpleParam)
  | [] => .ok []
  | p :: rest =>
      match getParamParser p with
      | .error e => .error e
      | .ok ps =>
          match simplifyParams rest with
          | .error e => .error e
          | .ok tail => .ok (ps ++ tail)

/-- What the mutable `node` variable of `getNode` holds after the
visitors' mutations: the id object (outer `none` models a null `node.id`,
as on an anonymous function declaration; the inner option is the `name`
property), the (possibly overwritten) location, and the raw params. -/
structure Found where
  id : Option (Option String)
  loc : Loc
  params : List Pat

/-- funcParser.js lines 37-40: is the node's start line on the target
line, or one line below it (`startLine - 1 === lineNum`)? -/
def onLine (loc : Loc) (lineNum : Nat) : Bool :=
  loc.line == lineNum || loc.line - 1 == lineNum

/-- One firing of a visitor of `getNode` (funcParser.js lines 53-87),
carrying exactly the fields the visitor body reads.  The export visitor
(lines 75-77) only records the export node in the outer `exported`
variable; since `exported.declaration === node` (line 58) is a reference
comparison, it succeeds exactly for the declaration that is the export's
direct payload — the node visited immediately after the export in
pre-order — so that context is carried here as the `exportLoc` field of
the payload's own event instead of a separate event. -/
inductive Event where
  | functionDeclaration (loc : Loc) (id : Option String) (params : List Pat)
      (exportLoc : Option Loc)
  | variableDeclaration (loc : Loc) (decls : List VarDeclarator)
  | assignmentExpression (loc : Loc) (left : Expr) (right : Expr)

/-- The location of the node a visitor event fires on. -/
def Event.loc : Event → Loc
  | .functionDeclaration l _ _ _ => l
  | .variableDeclaration l _ => l
  | .assignmentExpression l _ _ => l

/-- The body of one visitor call of `getNode` (funcParser.js lines
54-86), acting on the current value of the mutable `node` variable:
- FunctionDeclaration (54-62): on a line match, `node = n`, and when the
  node is the pending export's direct payload, `node.loc = exported.loc`;
- VariableDeclaration (63-74): `declarator = n.declarations[0]`; on a
  line match, reading `declarator.type` crashes if the list is empty and
  `declarator.init.type` crashes if there is no initializer; a
  FunctionExpression initializer becomes the node with the declaration's
  own loc and the declarator's bound name;
- AssignmentExpression (78-86): on a line match with a MemberExpression
  left and FunctionExpression right, the right becomes the node with the
  assignment's loc and the final property's name. -/
def getNodeStep (lineNum : Nat) (st : Option Found) : Event → Except JsErr (Option Found)
  | .functionDeclaration loc id params exportLoc =>
      if onLine loc lineNum then
        .ok (some { id := id.map some, loc := exportLoc.getD loc, params })
      else .ok st
  | .variableDeclaration loc decls =>
      if onLine loc lineNum then
        match decls.head? with
        | none => .error .typeError
        | some (.mk idPat init) =>
          match init with
          | none => .error .typeError
          | some (.functionExpr _ ps _) =>
              .ok (some { id := some (patName idPat), loc := loc, params := ps })
          | some _ => .ok st
      else .ok st
  | .assignmentExpression loc left right =>
      if onLine loc lineNum then
        match left, right with
        | .memberExpr _ prop, .functionExpr _ ps _ =>
            .ok (some { id := some (exprName prop), loc := loc, params := ps })
        | _, _ => .ok st
      else .ok st

mutual
/-- Pre-order (enter-phase) enumeration of the visitor firings of
babel-traverse below one statement, as `getNode`'s visitor set sees
them.  `exportLoc` is `some l` exactly when this statement is the direct
`declaration` payload of an export node at location `l` (see `Event`). -/
def stmtEvents : Option Loc → Stmt → List Event
  | exportLoc, .functionDecl loc id params body =>
      .functionDeclaration loc id params exportLoc ::
        (patListEvents params ++ stmtListEvents body)
  | _, .variableDecl loc decls =>
      .variableDeclaration loc decls :: declListEvents decls
  | _, .exportNamed loc d =>
      match d with
      | none => []
      | some s => stmtEvents (some loc) s
  | _, .exportDefault loc s => stmtEvents (some loc) s
  | _, .exprStmt e => exprEvents e
  | _, .returnStmt none => []
  | _, .returnStmt (some e) => exprEvents e
  | _, .blockStmt body => stmtListEvents body

/-- Events of a statement list in order; list members are never a direct
export payload. -/
def stmtListEvents : List Stmt → List Event
  | [] => []
  | s :: rest => stmtEvents none s ++ stmtListEvents rest

/-- Events below a declarator list: each declarator's bound pattern then
its initializer, in order. -/
def declListEvents : List VarDeclarator → List Event
  | [] => []
  | .mk idPat init :: rest =>
      patEvents idPat ++
        (match init with
         | none => []
         | some e => exprEvents e) ++ declListEvents rest

/-- Events below an expression: an AssignmentExpression fires its own
visitor before its children are traversed. -/
def exprEvents : Expr → List Event
  | .stringLit _ => []
  | .numericLit _ => []
  | .arrayExpr es => exprListEvents es
  | .objectExpr vs => exprListEvents vs
  | .functionExpr _ params body => patListEvents params ++ stmtListEvents body
  | .arrowFunctionExpr _ params body => patListEvents params ++ stmtListEvents body
  | .identifierExpr _ => []
  | .memberExpr obj prop => exprEvents obj ++ exprEvents prop
  | .assignmentExpr loc l r =>
      .assignmentExpression loc l r :: (exprEvents l ++ exprEvents r)
  | .otherExpr _ => []

/-- Events of an expression list in order. -/
def exprListEvents : List Expr → List Event
  | [] => []
  | e :: rest => exprEvents e ++ exprListEvents rest

/-- Events below a pattern (default expressions can hold arbitrary
expressions, including assignments). -/
def patEvents : Pat → List Event
  | .identifier _ => []
  | .assignmentPattern l r => patEvents l ++ exprEvents r
  | .restElement a => patEvents a
  | .objectPattern props => propListEvents props
  | .otherPat _ => []

/-- Events of a pattern list in order. -/
def patListEvents : List Pat → List Event
  | [] => []
  | p :: rest => patEvents p ++ patListEvents rest

/-- Events below an object pattern's properties. -/
def propListEvents : List ObjPatProp → List Event
  | [] => []
  | .mk _ v :: rest => patEvents v ++ propListEvents rest
end

/-- funcParser.js lines 50-89: `getNode` runs the traversal with the
visitor set over the program and returns the final value of the mutable
`node` variable (initially null). -/
def getNode (prog : List Stmt) (lineNum : Nat) : Except JsErr (Option Found) :=
  (stmtListEvents prog).foldlM (getNodeStep lineNum) none

/-- funcParser.js lines 207-212: `simplifyLocation` maps the node's start
to the comment-insertion point, one line up but clamped to line 1. -/
def simplifyLocation (loc : Loc) : Loc :=
  { line := max (loc.line - 1) 1, column := loc.column }

/-- The constant `returns` placeholder of the descriptor
(funcParser.js line 227). -/
structure ReturnsInfo where
  returns : Bool
deriving Repr, DecidableEq

/-- The assembled function descriptor (funcParser.js lines 222-229). -/
structure FunctionDescriptor where
  name : Option String
  location : Loc
  params : List SimpleParam
  returns : ReturnsInfo
deriving Repr, DecidableEq

/-- funcParser.js lines 222-229: `simplifyNode` reads `node.id.name`
(a TypeError when `id` is null), simplifies the params and the location
and assembles the descriptor with the constant returns placeholder. -/
def simplifyNode (f : Found) : Except JsErr FunctionDescriptor :=
  match f.id with
  | none => .error .typeError
  | some nm =>
      match simplifyParams f.params with
      | .error e => .error e
      | .ok ps =>
          .ok { name := nm, location := simplifyLocation f.loc, params := ps,
                returns := { returns := false } }

/-- funcParser.js lines 241-249: `parse` builds the AST (the babylon
call itself is the external Source Parser; this embedding starts from
the parsed program body), locates the node, returns null when there is
none, and otherwise simplifies it; every failure propagates. -/
def parse (prog : List Stmt) (lineNum : Nat := 1) : Except JsErr (Option FunctionDescriptor) :=
  match getNode prog lineNum with
  | .error e => .error e
  | .ok none => .ok none
  | .ok (some n) =>
      match simplifyNode n with
      | .error e => .error e
      | .ok d => .ok (some d)

/-- Specification-side per-event match (from the spec's Locator
contract): the candidate a visitor firing would select, if any — the
node must sit on the target line or one below, and have one of the three
matched shapes; a matched export payload reports the export's location. -/
def eventCandidate (lineNum : Nat) : Event → Option Found
  | .functionDeclaration loc id params exportLoc =>
      if onLine loc lineNum then some { id := id.map some, loc := exportLoc.getD loc, params }
      else none
  | .variableDeclaration loc decls =>
      if onLine loc lineNum then
        match decls.head? with
        | some (.mk idPat (some (.functionExpr _ ps _))) =>
            some { id := some (patName idPat), loc := loc, params := ps }
        | _ => none
      else none
  | .assignmentExpression loc left right =>
      if onLine loc lineNum then
        match left, right with
        | .memberExpr _ prop, .functionExpr _ ps _ =>
            some { id := some (exprName prop), loc := loc, params := ps }
        | _, _ => none
      else none

/-- The last element of a candidate list, falling back to a default:
"the most recently visited match wins, none means no function here". -/
def lastOr (st : Option Found) : List Found → Option Found
  | [] => st
  | c :: rest => lastOr (some c) rest

/-- Specification-side Locator (from the spec's words): the most
recently visited matching node of the pre-order traversal, or null. -/
def locatorSpec (prog : List Stmt) (lineNum : Nat) : Option Found :=
  lastOr none (((stmtListEvents prog).filterMap (eventCandidate lineNum)))

/-- The four default-expression kinds `parseAssignmentParam` accepts. -/
def supportedDefaultKind : Expr → Bool
  | .stringLit _ => true
  | .numericLit _ => true
  | .arrayExpr _ => true
  | .objectExpr _ => true
  | _ => false

/-- `onLine` holds exactly when the node starts on the target line or on
the line just below it (`startLine - 1 === lineNum`). -/
theorem onLine_iff (loc : Loc) (lineNum : Nat) :
    onLine loc lineNum = true ↔ (loc.line = lineNum ∨ loc.line = lineNum + 1) := by
  simp only [onLine, Bool.or_eq_true, beq_iff_eq]
  omega

/-- Arrow-function and identifier parameter lists contribute no visitor
events. -/
theorem patListEvents_map_identifier (names : List String) :
    patListEvents (names.map Pat.identifier) = [] := by
  induction names with
  | nil => rfl
  | cons n rest ih => simp [patListEvents, patEvents, ih]

/-- C1 (code bug): with a variable declaration that has no initializer on
the target line, `getNode`'s VariableDeclaration visitor reads
`declarator.init.type` on a null `init` (funcParser.js line 68), so
`parse` raises a TypeError instead of returning null: the source text
`var x;` with target line 1 crashes the call. -/
theorem c1_uninitialized_var_raises_type_error :
    parse [.variableDecl ⟨1, 0⟩ [.mk (.identifier "x") none]] 1 = .error .typeError := by
  simp [parse, getNode, stmtListEvents, stmtEvents, declListEvents, patEvents,
    List.foldlM, getNodeStep, onLine]

/-- C5: a parameter whose default is an array literal gets type "array"
and defaultValue rendered as the fixed empty-array string, whatever the
elements are; an object-literal default gets type "object" and the fixed
empty-object string, whatever the properties are
(funcParser.js lines 122-127). -/
theorem c5_array_object_defaults_content_free :
    (∀ (left : Pat) (elems : List Expr),
      parseAssignmentParam left (.arrayExpr elems) =
        .ok [{ name := patName left, type := some "array",
               defaultValue := some (.jstr "[]") }]) ∧
    (∀ (left : Pat) (values : List Expr),
      parseAssignmentParam left (.objectExpr values) =
        .ok [{ name := patName left, type := some "object",
               defaultValue := some (.jstr "\x7b\x7d") }]) :=
  ⟨fun _ _ => rfl, fun _ _ => rfl⟩

/-- C7: a top-level parameter of a kind outside the dispatch table
aborts `simplifyParams` with the `Unknown param type` error naming that
kind (funcParser.js lines 154-160), provided the parameters before it
simplified; and a defaulted parameter whose default expression is none
of the four literal kinds makes `parseAssignmentParam` throw, the thrown
value being the offending kind string itself (line 129).  In both cases
the call yields no descriptors. -/
theorem c7_unsupported_kinds_abort :
    (∀ (pre : List Pat) (k : String) (post : List Pat) (l : List SimpleParam),
      simplifyParams pre = .ok l →
      simplifyParams (pre ++ .otherPat k :: post) = .error (.unknownParamType k)) ∧
    (∀ (left : Pat) (right : Expr), supportedDefaultKind right = false →
      parseAssignmentParam left right = .error (.unknownParamTypeThrown right.kind)) := by
  constructor
  · intro pre k post
    induction pre with
    | nil =>
        intro l _
        simp [simplifyParams, getParamParser]
    | cons p rest ih =>
        intro l h
        rw [List.cons_append]
        simp only [simplifyParams] at h ⊢
        cases hp : getParamParser p with
        | error e => rw [hp] at h; exact Except.noConfusion h
        | ok ps =>
            rw [hp] at h
            cases hr : simplifyParams rest with
            | error e => rw [hr] at h; exact Except.noConfusion h
            | ok tail => rw [ih tail hr]
  · intro left right h
    cases right <;> simp_all [parseAssignmentParam, supportedDefaultKind, Expr.kind]

/-- Witness for C7 at concrete inputs: an ArrayPattern parameter after a
plain one aborts the simplification, and an arrow-function default
throws its kind string. -/
theorem c7_unsupported_kinds_abort_witness :
    simplifyParams ([.identifier "x"] ++ .otherPat "ArrayPattern" :: []) =
      .error (.unknownParamType "ArrayPattern") ∧
    parseAssignmentParam (.identifier "a") (.arrowFunctionExpr ⟨1, 10⟩ [] []) =
      .error (.unknownParamTypeThrown "ArrowFunctionExpression") :=
  ⟨c7_unsupported_kinds_abort.1 [.identifier "x"] "ArrayPattern" []
      [{ name := some "x" }]
      (by simp [simplifyParams, getParamParser, parseIdentifierParam]),
    c7_unsupported_kinds_abort.2 (.identifier "a") (.arrowFunctionExpr ⟨1, 10⟩ [] []) rfl⟩

/-- Invariant on descriptors: a present `defaultValue` is either a JS
string, or a JS number on a descriptor typed "number" (the latter is the
numeric-literal branch of funcParser.js lines 119-121). -/
def goodDV (d : SimpleParam) : Prop :=
  ∀ v, d.defaultValue = some v →
    (∃ s, v = .jstr s) ∨ (∃ n, v = .jnum n ∧ d.type = some "number")

/-- Overwriting `parent` changes neither `type` nor `defaultValue`. -/
theorem withParent_goodDV (p : String) (d : SimpleParam) (h : goodDV d) :
    goodDV (withParent p d) := by
  intro v hv
  exact h v hv

/-- Every descriptor `parseAssignmentParam` emits satisfies `goodDV`. -/
theorem parseAssignmentParam_goodDV (l : Pat) (r : Expr) (ps : List SimpleParam)
    (h : parseAssignmentParam l r = .ok ps) : ∀ d ∈ ps, goodDV d := by
  cases r
  case stringLit s =>
      simp only [parseAssignmentParam, Except.ok.injEq] at h
      subst h
      intro d hd
      simp only [List.mem_singleton] at hd
      subst hd
      intro v hv
      injection hv with hv
      exact Or.inl ⟨s, hv.symm⟩
  case numericLit n =>
      simp only [parseAssignmentParam, Except.ok.injEq] at h
      subst h
      intro d hd
      simp only [List.mem_singleton] at hd
      subst hd
      intro v hv
      injection hv with hv
      exact Or.inr ⟨n, hv.symm, rfl⟩
  case arrayExpr es =>
      simp only [parseAssignmentParam, Except.ok.injEq] at h
      subst h
      intro d hd
      simp only [List.mem_singleton] at hd
      subst hd
      intro v hv
      injection hv with hv
      exact Or.inl ⟨"[]", hv.symm⟩
  case objectExpr vs =>
      simp only [parseAssignmentParam, Except.ok.injEq] at h
      subst h
      intro d hd
      simp only [List.mem_singleton] at hd
      subst hd
      intro v hv
      injection hv with hv
      exact Or.inl ⟨"\x7b\x7d", hv.symm⟩
  all_goals exact fun d hd => absurd h (by simp [parseAssignmentParam])

mutual
/-- Every descriptor emitted by the parameter dispatch satisfies
`goodDV`. -/
theorem getParamParser_goodDV (p : Pat) (ps : List SimpleParam)
    (h : getParamParser p = .ok ps) : ∀ d ∈ ps, goodDV d := by
  match p with
  | .identifier n =>
      simp only [getParamParser, parseIdentifierParam, Except.ok.injEq] at h
      subst h
      intro d hd
      simp only [List.mem_singleton] at hd
      subst hd
      intro v hv
      exact absurd hv (by simp)
  | .assignmentPattern l r =>
      simp only [getParamParser] at h
      exact parseAssignmentParam_goodDV l r ps h
  | .restElement a =>
      simp only [getParamParser, parseRestParam, Except.ok.injEq] at h
      subst h
      intro d hd
      simp only [List.mem_singleton] at hd
      subst hd
      intro v hv
      exact absurd hv (by simp)
  | .objectPattern props =>
      simp only [getParamParser, parseDestructuredParam] at h
      cases hc : destructuredChildren props with
      | error e => rw [hc] at h; exact Except.noConfusion h
      | ok children =>
          rw [hc] at h
          simp only [Except.ok.injEq] at h
          subst h
          intro d hd
          simp only [List.mem_cons] at hd
          cases hd with
          | inl hd => subst hd; intro v hv; exact absurd hv (by simp)
          | inr hd => exact destructuredChildren_goodDV props children hc d hd
  | .otherPat k =>
      simp only [getParamParser] at h
      exact Except.noConfusion h

/-- Every child descriptor of a destructured parameter satisfies
`goodDV`. -/
theorem destructuredChildren_goodDV (props : List ObjPatProp) (ps : List SimpleParam)
    (h : destructuredChildren props = .ok ps) : ∀ d ∈ ps, goodDV d := by
  match props with
  | [] =>
      simp only [destructuredChildren, Except.ok.injEq] at h
      subst h
      intro d hd
      exact absurd hd (by simp)
  | .mk k v :: rest =>
      simp only [destructuredChildren] at h
      cases hv : getParamParser v with
      | error e => rw [hv] at h; exact Except.noConfusion h
      | ok l =>
          rw [hv] at h
          cases hr : destructuredChildren rest with
          | error e => rw [hr] at h; exact Except.noConfusion h
          | ok tail =>
              rw [hr] at h
              simp only [Except.ok.injEq] at h
              subst h
              intro d hd
              rcases List.mem_append.1 hd with hd | hd
              · rcases List.mem_map.1 hd with ⟨d0, hd0, rfl⟩
                exact withParent_goodDV _ d0 (getParamParser_goodDV v l hv d0 hd0)
              · exact destructuredChildren_goodDV rest tail hr d hd
end

/-- Every descriptor `simplifyParams` emits satisfies `goodDV`. -/
theorem simplifyParams_goodDV (params : List Pat) (ps : List SimpleParam)
    (h : simplifyParams params = .ok ps) : ∀ d ∈ ps, goodDV d := by
  induction params generalizing ps with
  | nil =>
      simp only [simplifyParams, Except.ok.injEq] at h
      subst h
      intro d hd
      exact absurd hd (by simp)
  | cons p rest ih =>
      simp only [simplifyParams] at h
      cases hp : getParamParser p with
      | error e => rw [hp] at h; exact Except.noConfusion h
      | ok l =>
          rw [hp] at h
          cases hr : simplifyParams rest with
          | error e => rw [hr] at h; exact Except.noConfusion h
          | ok tail =>
              rw [hr] at h
              simp only [Except.ok.injEq] at h
              subst h
              intro d hd
              rcases List.mem_append.1 hd with hd | hd
              · exact getParamParser_goodDV p l hp d hd
              · exact ih tail hr d hd

/-- C6 counterexample: for `function f(a = 5) \x7b\x7d` at line 1, `parse`
emits a descriptor whose `defaultValue` is present and is the JS number
5, not a string — refuting "whenever defaultValue is present it is a
string". -/
theorem c6_numeric_default_value_is_not_a_string :
    parse [.functionDecl ⟨1, 0⟩ (some "f")
        [.assignmentPattern (.identifier "a") (.numericLit 5)] []] 1 =
      .ok (some { name := some "f", location := ⟨1, 0⟩,
                  params := [{ name := some "a", type := some "number",
                               defaultValue := some (.jnum 5) }],
                  returns := { returns := false } }) ∧
    JVal.isString (.jnum 5) = false := by
  constructor
  · simp [parse, getNode, stmtListEvents, stmtEvents, patListEvents, patEvents,
      exprEvents, List.foldlM, getNodeStep, onLine, simplifyNode, simplifyParams,
      getParamParser, parseAssignmentParam, simplifyLocation, patName]
  · rfl

/-- Inversion of a successful `parse`: the locator produced a node and
`simplifyNode` accepted it. -/
theorem parse_ok_some (prog : List Stmt) (lineNum : Nat) (desc : FunctionDescriptor)
    (h : parse prog lineNum = .ok (some desc)) :
    ∃ f, getNode prog lineNum = .ok (some f) ∧ simplifyNode f = .ok desc := by
  unfold parse at h
  split at h
  · exact Except.noConfusion h
  · exact absurd h (by simp)
  · next f heq =>
      split at h
      · exact Except.noConfusion h
      · next d h2 =>
          have hd : d = desc := Option.some.inj (Except.ok.inj h)
          subst hd
          exact ⟨f, heq, h2⟩

/-- Inversion of a successful `simplifyNode`: the node had a non-null
`id`, its params simplified, and the descriptor is the assembled record. -/
theorem simplifyNode_ok (f : Found) (desc : FunctionDescriptor)
    (h : simplifyNode f = .ok desc) :
    ∃ nm ps, f.id = some nm ∧ simplifyParams f.params = .ok ps ∧
      desc = { name := nm, location := simplifyLocation f.loc, params := ps,
               returns := { returns := false } } := by
  unfold simplifyNode at h
  split at h
  · exact Except.noConfusion h
  · next nm hnm =>
      split at h
      · exact Except.noConfusion h
      · next ps hp => exact ⟨nm, ps, hnm, hp, (Except.ok.inj h).symm⟩

/-- C6 (amended): in every descriptor `parse` emits, a present
`defaultValue` is either a JS string, or a JS number carried on a
descriptor whose `type` is "number" (the numeric-literal default case) —
so it is a string in all cases except numeric-literal defaults. -/
theorem c6_default_value_string_or_number (prog : List Stmt) (lineNum : Nat)
    (desc : FunctionDescriptor) (h : parse prog lineNum = .ok (some desc)) :
    ∀ d ∈ desc.params, ∀ v, d.defaultValue = some v →
      (∃ s, v = .jstr s) ∨ (∃ n, v = .jnum n ∧ d.type = some "number") := by
  obtain ⟨f, _, hs⟩ := parse_ok_some prog lineNum desc h
  obtain ⟨nm, ps, _, hp, rfl⟩ := simplifyNode_ok f desc hs
  intro d hd
  exact simplifyParams_goodDV f.params ps hp d hd

/-- Witness for the amended C6, fully applied to the numeric-default
descriptor of `function g(c = 2) \x7b\x7d` at target line 1. -/
theorem c6_default_value_string_or_number_witness :
    (∃ s, JVal.jnum 2 = .jstr s) ∨
    (∃ n, JVal.jnum 2 = .jnum n ∧
      ({ name := some "c", type := some "number",
         defaultValue := some (.jnum 2) } : SimpleParam).type = some "number") :=
  c6_default_value_string_or_number
    [.functionDecl ⟨1, 0⟩ (some "g")
      [.assignmentPattern (.identifier "c") (.numericLit 2)] []] 1
    { name := some "g", location := ⟨1, 0⟩,
      params := [{ name := some "c", type := some "number",
                   defaultValue := some (.jnum 2) }],
      returns := { returns := false } }
    (by simp [parse, getNode, stmtListEvents, stmtEvents, patListEvents, patEvents,
      exprEvents, List.foldlM, getNodeStep, onLine, simplifyNode, simplifyParams,
      getParamParser, parseAssignmentParam, simplifyLocation, patName])
    { name := some "c", type := some "number", defaultValue := some (.jnum 2) }
    (by simp) (.jnum 2) rfl

/-- C9: whenever `parse` emits a descriptor, its location is exactly the
located node's start mapped by `simplifyLocation`:
line = max(start.line - 1, 1) and column = start.column
(funcParser.js lines 207-212); `simplifyLocation` itself is total, so
the mapping has no failure mode. -/
theorem c9_location_mapping (prog : List Stmt) (lineNum : Nat)
    (desc : FunctionDescriptor) (h : parse prog lineNum = .ok (some desc)) :
    ∃ f, getNode prog lineNum = .ok (some f) ∧
      desc.location = simplifyLocation f.loc ∧
      desc.location.line = max (f.loc.line - 1) 1 ∧
      desc.location.column = f.loc.column := by
  obtain ⟨f, hg, hs⟩ := parse_ok_some prog lineNum desc h
  obtain ⟨nm, ps, _, _, rfl⟩ := simplifyNode_ok f desc hs
  exact ⟨f, hg, rfl, rfl, rfl⟩

/-- Witness for C9: `function f() \x7b\x7d` starting at line 5 column 2,
targeted from line 4, reports insertion point line 4 column 2. -/
theorem c9_location_mapping_witness :
    ∃ f, getNode [.functionDecl ⟨5, 2⟩ (some "f") [] []] 4 = .ok (some f) ∧
      ({ name := some "f", location := ⟨4, 2⟩, params := [],
         returns := { returns := false } } : FunctionDescriptor).location =
        simplifyLocation f.loc ∧
      ({ name := some "f", location := ⟨4, 2⟩, params := [],
         returns := { returns := false } } : FunctionDescriptor).location.line =
        max (f.loc.line - 1) 1 ∧
      ({ name := some "f", location := ⟨4, 2⟩, params := [],
         returns := { returns := false } } : FunctionDescriptor).location.column =
        f.loc.column :=
  c9_location_mapping [.functionDecl ⟨5, 2⟩ (some "f") [] []] 4 _
    (by simp [parse, getNode, stmtListEvents, stmtEvents, patListEvents,
      List.foldlM, getNodeStep, onLine, simplifyNode, simplifyParams,
      simplifyLocation])

/-- C10: an arrow function is never matched by the Locator: both the
variable-declaration shape (funcParser.js line 68) and the
member-assignment shape (line 81) demand the initializer / right-hand
side to be exactly a FunctionExpression, and no visitor keys on arrow
functions, so with only an arrow construct in the program `parse`
returns null for every target line. -/
theorem c10_arrow_functions_never_match (lineNum : Nat) (dloc aloc : Loc)
    (nm : String) (pnames : List String) :
    parse [.variableDecl dloc [.mk (.identifier nm)
        (some (.arrowFunctionExpr aloc (pnames.map .identifier) []))]] lineNum = .ok none ∧
    ∀ (obj meth : String),
      parse [.exprStmt (.assignmentExpr dloc
          (.memberExpr (.identifierExpr obj) (.identifierExpr meth))
          (.arrowFunctionExpr aloc (pnames.map .identifier) []))] lineNum = .ok none := by
  constructor
  · simp only [parse, getNode, stmtListEvents, stmtEvents, declListEvents, patEvents,
      exprEvents, patListEvents_map_identifier, List.append_nil, List.nil_append,
      List.foldlM]
    cases hl : onLine dloc lineNum <;> simp [getNodeStep, hl]
  · intro obj meth
    simp only [parse, getNode, stmtListEvents, stmtEvents, exprEvents,
      patListEvents_map_identifier, List.append_nil, List.nil_append, List.foldlM]
    cases hl : onLine dloc lineNum <;> simp [getNodeStep, hl]

/-- C8 counterexample: `export const f = function () \x7b\x7d` with the
export keyword at line 3 column 0 and the variable declaration at
column 7 — the located node keeps the variable declaration's location
(the VariableDeclaration visitor, funcParser.js lines 63-74, never
consults the recorded export), refuting the claimed adoption of the
export statement's own location. -/
theorem c8_export_bound_var_keeps_decl_location :
    getNode [.exportNamed ⟨3, 0⟩ (some (.variableDecl ⟨3, 7⟩
        [.mk (.identifier "f") (some (.functionExpr ⟨3, 17⟩ [] []))]))] 3 =
      .ok (some { id := some (some "f"), loc := ⟨3, 7⟩, params := [] }) ∧
    (⟨3, 7⟩ : Loc) ≠ ⟨3, 0⟩ := by
  constructor
  · simp [getNode, stmtListEvents, stmtEvents, declListEvents, patEvents, exprEvents,
      patListEvents, List.foldlM, getNodeStep, onLine, patName]
  · decide

/-- C8 (amended): only a function declaration that is the direct payload
of an export wrapper (named or default) adopts the export statement's
own location (funcParser.js lines 58-60); a variable-declaration-bound
function expression under an export keeps the variable declaration's own
location (lines 63-74), which starts after the export keyword. -/
theorem c8_export_location_adoption (lineNum : Nat) (eloc floc : Loc)
    (nm : String) (pnames : List String) :
    (onLine floc lineNum = true →
      getNode [.exportNamed eloc (some (.functionDecl floc (some nm)
          (pnames.map .identifier) []))] lineNum =
        .ok (some { id := some (some nm), loc := eloc,
                    params := pnames.map .identifier })) ∧
    (onLine floc lineNum = true →
      getNode [.exportDefault eloc (.functionDecl floc (some nm)
          (pnames.map .identifier) [])] lineNum =
        .ok (some { id := some (some nm), loc := eloc,
                    params := pnames.map .identifier })) ∧
    ∀ (vloc iloc : Loc), onLine vloc lineNum = true →
      getNode [.exportNamed eloc (some (.variableDecl vloc
          [.mk (.identifier nm) (some (.functionExpr iloc
            (pnames.map .identifier) []))]))] lineNum =
        .ok (some { id := some (some nm), loc := vloc,
                    params := pnames.map .identifier }) := by
  refine ⟨fun h => ?_, fun h => ?_, fun vloc iloc h => ?_⟩
  · simp [getNode, stmtListEvents, stmtEvents, patListEvents_map_identifier,
      List.foldlM, getNodeStep, h]
  · simp [getNode, stmtListEvents, stmtEvents, patListEvents_map_identifier,
      List.foldlM, getNodeStep, h]
  · simp [getNode, stmtListEvents, stmtEvents, declListEvents, patEvents, exprEvents,
      patListEvents_map_identifier, List.foldlM, getNodeStep, h, patName]

/-- Witness for the amended C8 at concrete inputs (export at line 2
column 0, function declaration at line 2 column 7, variable declaration
at line 2 column 9, target line 2). -/
theorem c8_export_location_adoption_witness :
    onLine ⟨2, 7⟩ 2 = true ∧ onLine ⟨2, 9⟩ 2 = true ∧
    getNode [.exportNamed ⟨2, 0⟩ (some (.functionDecl ⟨2, 7⟩ (some "g") [] []))] 2 =
      .ok (some { id := some (some "g"), loc := ⟨2, 0⟩, params := [] }) ∧
    getNode [.exportNamed ⟨2, 0⟩ (some (.variableDecl ⟨2, 9⟩
        [.mk (.identifier "g") (some (.functionExpr ⟨2, 19⟩ [] []))]))] 2 =
      .ok (some { id := some (some "g"), loc := ⟨2, 9⟩, params := [] }) :=
  ⟨rfl, rfl,
    by
      have h := (c8_export_location_adoption 2 ⟨2, 0⟩ ⟨2, 7⟩ "g" []).1 rfl
      simpa using h,
    by
      have h := (c8_export_location_adoption 2 ⟨2, 0⟩ ⟨2, 7⟩ "g" []).2.2 ⟨2, 9⟩ ⟨2, 19⟩ rfl
      simpa using h⟩

/-- The `value` field of an ObjectProperty in a pattern. -/
def ObjPatProp.value : ObjPatProp → Pat
  | .mk _ v => v

/-- Property-value kinds whose parser emits exactly one descriptor
(Identifier, AssignmentPattern, RestElement — everything the dispatch
supports except a nested ObjectPattern). -/
def expandsToOne : Pat → Bool
  | .identifier _ => true
  | .assignmentPattern _ _ => true
  | .restElement _ => true
  | _ => false

/-- A successful parser call on an `expandsToOne` pattern yields a
single descriptor. -/
theorem expandsToOne_singleton (v : Pat) (ps : List SimpleParam)
    (hv : expandsToOne v = true) (h : getParamParser v = .ok ps) :
    ∃ d, ps = [d] := by
  cases v with
  | identifier n =>
      simp only [getParamParser, parseIdentifierParam, Except.ok.injEq] at h
      exact ⟨_, h.symm⟩
  | assignmentPattern l r =>
      simp only [getParamParser] at h
      cases r <;> simp only [parseAssignmentParam, Except.ok.injEq] at h <;>
        first
          | exact ⟨_, h.symm⟩
          | exact absurd h (by simp)
  | restElement a =>
      simp only [getParamParser, parseRestParam, Except.ok.injEq] at h
      exact ⟨_, h.symm⟩
  | objectPattern props => exact absurd hv (by simp [expandsToOne])
  | otherPat k => exact absurd hv (by simp [expandsToOne])

/-- Inversion of a successful `parseDestructuredParam`: the children
reduced and the result is the synthetic parent followed by them. -/
theorem parseDestructuredParam_ok (props : List ObjPatProp) (l : List SimpleParam)
    (h : parseDestructuredParam props = .ok l) :
    ∃ children, destructuredChildren props = .ok children ∧
      l = { name := some DEFAULT_PARAM_NAME, type := some "object" } :: children := by
  unfold parseDestructuredParam at h
  split at h
  · exact Except.noConfusion h
  · next children hc => exact ⟨children, hc, (Except.ok.inj h).symm⟩

/-- Inversion of a successful `destructuredChildren` step: the head
property's parser succeeded, the tail reduced, and the result is the
parent-tagged head descriptors followed by the tail. -/
theorem destructuredChildren_cons_ok (k : String) (v : Pat) (rest : List ObjPatProp)
    (l : List SimpleParam) (h : destructuredChildren (.mk k v :: rest) = .ok l) :
    ∃ ps tail, getParamParser v = .ok ps ∧ destructuredChildren rest = .ok tail ∧
      l = ps.map (withParent DEFAULT_PARAM_NAME) ++ tail := by
  simp only [destructuredChildren] at h
  split at h
  · exact Except.noConfusion h
  · next ps hps =>
      split at h
      · exact Except.noConfusion h
      · next tail htail => exact ⟨ps, tail, hps, htail, (Except.ok.inj h).symm⟩

/-- C2 counterexample: the destructured parameter `(\x7b a: \x7b b \x7d \x7d)`,
whose property value is itself an object pattern, does NOT fail:
`PARAM_PARSERS` maps ObjectPattern to `parseDestructuredParam`
(funcParser.js line 12), so the nested pattern recurses and descriptors
ARE produced — refuting "fails with UnknownParamType and no descriptor
is produced". -/
theorem c2_nested_destructuring_succeeds :
    getParamParser (.objectPattern [.mk "a" (.objectPattern [.mk "b" (.identifier "b")])]) =
      .ok [{ name := some "Unknown", type := some "object" },
           { name := some "Unknown", parent := some "Unknown", type := some "object" },
           { name := some "b", parent := some "Unknown" }] := by
  simp [getParamParser, parseDestructuredParam, destructuredChildren,
    parseIdentifierParam, withParent, DEFAULT_PARAM_NAME]

/-- C2 (amended): a property whose value is a nested object pattern
recurses through the same dispatch: the nested pattern contributes its
own synthetic parent descriptor and children, and every contributed
descriptor then has its `parent` overwritten with the fixed placeholder;
no error is raised. -/
theorem c2_nested_destructuring_recurses (k : String)
    (sub rest : List ObjPatProp) (inner tail : List SimpleParam)
    (hsub : parseDestructuredParam sub = .ok inner)
    (hrest : destructuredChildren rest = .ok tail) :
    parseDestructuredParam (.mk k (.objectPattern sub) :: rest) =
      .ok ({ name := some DEFAULT_PARAM_NAME, type := some "object" } ::
        (inner.map (withParent DEFAULT_PARAM_NAME) ++ tail)) := by
  have h1 : getParamParser (.objectPattern sub) = .ok inner := by
    simp only [getParamParser]
    exact hsub
  have h2 : destructuredChildren (.mk k (.objectPattern sub) :: rest) =
      .ok (inner.map (withParent DEFAULT_PARAM_NAME) ++ tail) := by
    simp only [destructuredChildren]
    rw [h1, hrest]
  simp only [parseDestructuredParam, h2]

/-- Witness for the amended C2 at the concrete nested parameter
`(\x7b a: \x7b b \x7d \x7d)`. -/
theorem c2_nested_destructuring_recurses_witness :
    parseDestructuredParam [.mk "a" (.objectPattern [.mk "b" (.identifier "b")])] =
      .ok ({ name := some DEFAULT_PARAM_NAME, type := some "object" } ::
        (([{ name := some DEFAULT_PARAM_NAME, type := some "object" },
            { name := some "b", parent := some DEFAULT_PARAM_NAME }].map
              (withParent DEFAULT_PARAM_NAME)) ++ [])) :=
  c2_nested_destructuring_recurses "a" [.mk "b" (.identifier "b")] [] _ _
    (by simp [parseDestructuredParam, destructuredChildren, getParamParser,
      parseIdentifierParam, withParent, DEFAULT_PARAM_NAME])
    (by simp [destructuredChildren])

/-- C3 counterexample: a destructured parameter with ONE property (whose
value is a nested object pattern) produces a parent followed by TWO
descriptors, not "one descriptor per destructured property". -/
theorem c3_nested_property_breaks_one_per_property :
    simplifyParams [.objectPattern [.mk "a" (.objectPattern [.mk "b" (.identifier "b")])]] =
      .ok [{ name := some "Unknown", type := some "object" },
           { name := some "Unknown", parent := some "Unknown", type := some "object" },
           { name := some "b", parent := some "Unknown" }] ∧
    ([{ name := some "Unknown", type := some "object" },
      { name := some "Unknown", parent := some "Unknown", type := some "object" },
      { name := some "b", parent := some "Unknown" }] : List SimpleParam).length ≠ 1 + 1 := by
  constructor
  · simp [simplifyParams, getParamParser, parseDestructuredParam, destructuredChildren,
      parseIdentifierParam, withParent, DEFAULT_PARAM_NAME]
  · decide

/-- C3 (amended): for a destructured parameter whose property values all
expand to a single descriptor (no nested object pattern), the output is
the synthetic parent `\x7bname:"Unknown", type:"object"\x7d` followed by
exactly one descriptor per property in declaration order, each with
`parent` set to the placeholder; and `simplifyParams` concatenates each
parameter's descriptors in declaration order. -/
theorem c3_destructured_order_and_parent :
    (∀ (props : List ObjPatProp) (l : List SimpleParam),
      (∀ pr ∈ props, expandsToOne pr.value = true) →
      parseDestructuredParam props = .ok l →
      ∃ cs, l = { name := some DEFAULT_PARAM_NAME, type := some "object" } :: cs ∧
        List.Forall₂ (fun (pr : ObjPatProp) (c : SimpleParam) =>
          ∃ d, getParamParser pr.value = .ok [d] ∧
            c = withParent DEFAULT_PARAM_NAME d) props cs) ∧
    (∀ (p : Pat) (rest : List Pat) (lp lt : List SimpleParam),
      getParamParser p = .ok lp → simplifyParams rest = .ok lt →
      simplifyParams (p :: rest) = .ok (lp ++ lt)) := by
  constructor
  · intro props
    induction props with
    | nil =>
        intro l _ h
        obtain ⟨children, hc, rfl⟩ := parseDestructuredParam_ok [] l h
        simp only [destructuredChildren, Except.ok.injEq] at hc
        subst hc
        exact ⟨[], rfl, List.Forall₂.nil⟩
    | cons pr rest ih =>
        intro l hall h
        obtain ⟨k, v⟩ := pr
        obtain ⟨children, hc, rfl⟩ := parseDestructuredParam_ok _ _ h
        obtain ⟨ps, tail, hps, htail, rfl⟩ := destructuredChildren_cons_ok k v rest _ hc
        have hone : expandsToOne v = true := hall (.mk k v) (List.mem_cons_self _ _)
        obtain ⟨d, rfl⟩ := expandsToOne_singleton v ps hone hps
        have hrestPD : parseDestructuredParam rest =
            .ok ({ name := some DEFAULT_PARAM_NAME, type := some "object" } :: tail) := by
          simp only [parseDestructuredParam, htail]
        obtain ⟨cs, hcs, hfa⟩ := ih _
          (fun pr hpr => hall pr (List.mem_cons_of_mem _ hpr)) hrestPD
        have hcs' : cs = tail := by
          injection hcs with _ h2
          exact h2.symm
        subst hcs'
        exact ⟨withParent DEFAULT_PARAM_NAME d :: cs, rfl,
          List.Forall₂.cons ⟨d, hps, rfl⟩ hfa⟩
  · intro p rest lp lt hp hr
    simp only [simplifyParams]
    rw [hp, hr]

/-- Witness for the amended C3 at the concrete parameter
`(\x7bx, y = 1\x7d)`. -/
theorem c3_destructured_order_and_parent_witness :
    (∃ cs, ([{ name := some DEFAULT_PARAM_NAME, type := some "object" },
             { name := some "x", parent := some DEFAULT_PARAM_NAME },
             { name := some "y", parent := some DEFAULT_PARAM_NAME,
               type := some "number", defaultValue := some (.jnum 1) }] : List SimpleParam) =
        { name := some DEFAULT_PARAM_NAME, type := some "object" } :: cs ∧
      List.Forall₂ (fun (pr : ObjPatProp) (c : SimpleParam) =>
        ∃ d, getParamParser pr.value = .ok [d] ∧
          c = withParent DEFAULT_PARAM_NAME d)
        [.mk "x" (.identifier "x"),
         .mk "y" (.assignmentPattern (.identifier "y") (.numericLit 1))] cs) :=
  (c3_destructured_order_and_parent).1
    [.mk "x" (.identifier "x"),
     .mk "y" (.assignmentPattern (.identifier "y") (.numericLit 1))] _
    (by intro pr hpr
        simp only [List.mem_cons, List.not_mem_nil, or_false] at hpr
        rcases hpr with rfl | rfl <;> rfl)
    (by simp [parseDestructuredParam, destructuredChildren, getParamParser,
      parseIdentifierParam, parseAssignmentParam, withParent, DEFAULT_PARAM_NAME, patName])


/-- `lastOr` computes the last element of the list, with the initial
value as fallback for the empty list. -/
theorem lastOr_eq_getLast? : ∀ (l : List Found) (st : Option Found),
    lastOr st l = match l.getLast? with
                  | some c => some c
                  | none => st := by
  intro l
  induction l with
  | nil => intro st; rfl
  | cons c cs ih =>
      intro st
      have h1 : lastOr st (c :: cs) = lastOr (some c) cs := rfl
      rw [h1, ih (some c)]
      cases cs with
      | nil => simp
      | cons d ds =>
          rw [List.getLast?_cons_cons]
          cases hgl : (d :: ds).getLast? with
          | none => simp [List.getLast?_eq_none_iff] at hgl
          | some x => rfl

/-- The last element of a list, when it exists, is a member. -/
theorem mem_of_getLast?_eq {α : Type} : ∀ (l : List α) (a : α), l.getLast? = some a → a ∈ l
  | [], a, h => by simp at h
  | [b], a, h => by
      have hb : b = a := by simpa using h
      simp [hb]
  | b :: c :: cs, a, h => by
      rw [List.getLast?_cons_cons] at h
      exact List.mem_cons_of_mem _ (mem_of_getLast?_eq (c :: cs) a h)

/-- One visitor step, when it does not crash, keeps the previous match
unless this event is itself a match, in which case the new match
replaces it — "the most recently visited match wins". -/
theorem getNodeStep_ok_or (lineNum : Nat) (st : Option Found) (ev : Event)
    (st' : Option Found) (h : getNodeStep lineNum st ev = .ok st') :
    st' = (eventCandidate lineNum ev).or st := by
  cases ev with
  | functionDeclaration loc id params exportLoc =>
      by_cases hl : onLine loc lineNum = true
      · simp [getNodeStep, hl] at h
        subst h
        simp [eventCandidate, hl, Option.or]
      · simp [getNodeStep, hl] at h
        subst h
        simp [eventCandidate, hl, Option.or]
  | variableDeclaration loc decls =>
      by_cases hl : onLine loc lineNum = true
      · cases decls with
        | nil => simp [getNodeStep, hl] at h
        | cons d rest =>
            obtain ⟨idPat, init⟩ := d
            cases init with
            | none => simp [getNodeStep, hl] at h
            | some e =>
                cases e <;>
                  (simp [getNodeStep, hl] at h
                   subst h
                   simp [eventCandidate, hl, Option.or])
      · simp [getNodeStep, hl] at h
        subst h
        simp [eventCandidate, hl, Option.or]
  | assignmentExpression loc left right =>
      by_cases hl : onLine loc lineNum = true
      · cases left <;> cases right <;>
          (simp [getNodeStep, hl] at h
           subst h
           simp [eventCandidate, hl, Option.or])
      · simp [getNodeStep, hl] at h
        subst h
        simp [eventCandidate, hl, Option.or]

/-- Folding the visitor over an event list without crashing yields the
last candidate of the list, with the initial state as fallback. -/
theorem foldlM_getNodeStep_ok (lineNum : Nat) :
    ∀ (evs : List Event) (st r : Option Found),
      List.foldlM (getNodeStep lineNum) st evs = .ok r →
      r = lastOr st (evs.filterMap (eventCandidate lineNum)) := by
  intro evs
  induction evs with
  | nil =>
      intro st r h
      rw [List.foldlM_nil] at h
      have hst : st = r := Except.ok.inj h
      rw [← hst]
      rfl
  | cons ev rest ih =>
      intro st r h
      rw [List.foldlM_cons] at h
      cases hstep : getNodeStep lineNum st ev with
      | error e =>
          rw [hstep] at h
          exact Except.noConfusion h
      | ok st' =>
          rw [hstep] at h
          have h' : List.foldlM (getNodeStep lineNum) st' rest = .ok r := h
          have hr := ih st' r h'
          subst hr
          have hor := getNodeStep_ok_or lineNum st ev st' hstep
          subst hor
          cases hc : eventCandidate lineNum ev with
          | none => simp [List.filterMap_cons, hc, Option.or]
          | some c => simp [List.filterMap_cons, hc, Option.or, lastOr]

/-- A candidate only arises from an event whose node sits on the target
line or the line below it. -/
theorem eventCandidate_onLine (lineNum : Nat) (ev : Event) (f : Found)
    (h : eventCandidate lineNum ev = some f) : onLine ev.loc lineNum = true := by
  cases ev with
  | functionDeclaration loc id params exportLoc =>
      by_cases hl : onLine loc lineNum = true
      · exact hl
      · simp [eventCandidate, hl] at h
  | variableDeclaration loc decls =>
      by_cases hl : onLine loc lineNum = true
      · exact hl
      · simp [eventCandidate, hl] at h
  | assignmentExpression loc left right =>
      by_cases hl : onLine loc lineNum = true
      · exact hl
      · simp [eventCandidate, hl] at h

/-- C4: whenever `getNode` returns (does not crash), its result equals
the specification Locator — the most recently visited matching node of
the pre-order traversal, or null when no visited node matches; and every
returned match arises from a visited node whose declaration starts on
the target line or exactly one line below it. -/
theorem c4_locator_last_preorder_match (prog : List Stmt) (lineNum : Nat)
    (r : Option Found) (h : getNode prog lineNum = .ok r) :
    r = locatorSpec prog lineNum ∧
    ∀ f, r = some f →
      ∃ ev ∈ stmtListEvents prog, eventCandidate lineNum ev = some f ∧
        (ev.loc.line = lineNum ∨ ev.loc.line = lineNum + 1) := by
  have h1 : r = lastOr none ((stmtListEvents prog).filterMap (eventCandidate lineNum)) :=
    foldlM_getNodeStep_ok lineNum (stmtListEvents prog) none r h
  refine ⟨h1, ?_⟩
  intro f hf
  rw [hf] at h1
  rw [lastOr_eq_getLast?] at h1
  cases hgl : ((stmtListEvents prog).filterMap (eventCandidate lineNum)).getLast? with
  | none => rw [hgl] at h1; exact Option.noConfusion h1
  | some c =>
      rw [hgl] at h1
      have hcf : c = f := (Option.some.inj h1).symm
      subst hcf
      have hmem := mem_of_getLast?_eq _ _ hgl
      obtain ⟨ev, hev, hc⟩ := List.mem_filterMap.1 hmem
      refine ⟨ev, hev, hc, ?_⟩
      exact (onLine_iff ev.loc lineNum).1 (eventCandidate_onLine lineNum ev c hc)

/-- Witness for C4: two nested function declarations both match target
line 1 (outer starts on it, inner starts one line below); the inner
one — the most recently visited under pre-order — wins. -/
theorem c4_locator_last_preorder_match_witness :
    ((some ⟨some (some "inner"), ⟨2, 2⟩, []⟩ : Option Found) =
      locatorSpec [.functionDecl ⟨1, 0⟩ (some "outer") []
        [.functionDecl ⟨2, 2⟩ (some "inner") [] []]] 1) ∧
    ∀ f, (some ⟨some (some "inner"), ⟨2, 2⟩, []⟩ : Option Found) = some f →
      ∃ ev ∈ stmtListEvents [.functionDecl ⟨1, 0⟩ (some "outer") []
        [.functionDecl ⟨2, 2⟩ (some "inner") [] []]],
        eventCandidate 1 ev = some f ∧ (ev.loc.line = 1 ∨ ev.loc.line = 1 + 1) :=
  c4_locator_last_preorder_match _ 1 _
    (by simp only [getNode, stmtListEvents, stmtEvents, patListEvents, List.foldlM,
      List.append_nil]
        rfl)
